import Mathlib

/-!
Verification development for the poriscope wavelet CUSUM core
(`cdlls/wavelet/src/utils.c` and `cdlls/wavelet/src/wavelet_filter.c`).

The C code is shallowly embedded: pure computations become Lean functions,
the singly-linked sentinel-head lists (edges, cusum levels, input files) are
modelled as Lean lists on which each C list operation acts at the tail, the
sticky global `errorcode` is threaded explicitly as state, and `double`
arithmetic is modelled over `ℝ` (for the transcendental formulas) or `ℚ`
(for values that are only stored and compared).  C string keys of the
settings parser are modelled by a closed enumeration of the recognized keys.
-/

namespace Poriscope

/-- Constant `HEAD` from utils.h, the reserved sentinel tag. -/
def HEAD : Int := -1000

/-- Constant `CHIMERA` from utils.h, the instrument-native datatype tag. -/
def CHIMERA : Int := 0

/-- Constant `BINARY` from utils.h, the generic binary datatype tag. -/
def BINARY : Int := 1

/-- Error code `ERR_MEM` from utils.h. -/
def ERR_MEM : Int := 2

/-- Error code `ERR_FILE` from utils.h. -/
def ERR_FILE : Int := 3

/-- Error code `ERR_DATA` from utils.h. -/
def ERR_DATA : Int := 4

/-- `my_max` from utils.c (`a > b ? a : b`), used by `initialize_signal` on
the integer filter orders; modelled on `Int` since its arguments there are
`int64_t` values exactly representable as doubles. -/
def my_max (a b : Int) : Int := if a > b then a else b

/-- `intmax` from utils.c. -/
def intmax (a b : Int) : Int := if a > b then a else b

/-- `intmin` from utils.c. -/
def intmin (a b : Int) : Int := if a < b then a else b

/-! ## Padded signal buffer (`initialize_signal`, utils.c lines 9-47)

Only the success path is modelled here (every `calloc_and_check` call
returns a block); the failure-path discipline is modelled separately for
the error-handling claims.  The model records the sizes and offsets that
`initialize_signal` computes: the length of the `paddedsignal` double
buffer, the offset of the inner `signal` view into it, and the element
count/size of the raw staging buffer. -/

/-- Layout computed by `initialize_signal`: buffer sizes and the offset of
the `signal` view inside `paddedsignal`. -/
structure SignalLayout where
  paddedLen : Int
  signalOffset : Int
  rawCount : Int
  rawElemSize : Int
  deriving Repr, DecidableEq

/-- Embedding of `initialize_signal` (utils.c): `paddedsignal` holds
`readlength + 2*(my_max(data_order, event_order) + filterpadding)` doubles,
`signal` points `data_order + filterpadding` entries into it, and the raw
staging buffer holds `readlength` elements of 2 bytes (chimera) or
`n_arrays*data_size` bytes (generic binary). -/
def initialize_signal (readlength data_order event_order filterpadding : Int)
    (datatype : Int) (n_arrays data_size : Int) : SignalLayout :=
  { paddedLen := readlength + 2 * (my_max data_order event_order + filterpadding)
  , signalOffset := data_order + filterpadding
  , rawCount := readlength
  , rawElemSize := if datatype = CHIMERA then 2
      else if datatype = BINARY then n_arrays * data_size else 0 }

/-- The padding claimed by the specification:
`max(dataOrder, eventOrder) + filterPadding`. -/
def paddingOf (data_order event_order filterpadding : Int) : Int :=
  my_max data_order event_order + filterpadding

/-! ## Edge lists (`initialize_edges`, `add_edge`, `count_edges`)

The C edge list is singly linked with a sentinel head tagged `type = HEAD`;
`add_edge` receives the current tail and either fills the sentinel in place
or allocates a new tail.  Since the tail argument is always the last node
of the list, the heap is abstracted as a Lean list and each operation acts
on the last element. -/

/-- One `edge` node (utils.h `struct Edge`), minus the `next` pointer which
is absorbed by the list abstraction. -/
structure Edge where
  location : Int
  type : Int
  local_stdev : ℚ
  local_baseline : ℚ
  deriving Repr, DecidableEq

/-- Embedding of `initialize_edges` (utils.c): one zeroed node with
`location = 0` and `type = HEAD`. -/
def initialize_edges : List Edge := [⟨0, HEAD, 0, 0⟩]

/-- Embedding of `add_edge` (utils.c): if the tail node still carries the
sentinel tag `HEAD` it is overwritten in place, otherwise a fresh node is
linked after the tail. -/
def add_edge (l : List Edge) (location : Int) (type : Int)
    (stdev baseline : ℚ) : List Edge :=
  match l.getLast? with
  | none => l
  | some cur =>
      if cur.type = HEAD then l.dropLast ++ [⟨location, type, stdev, baseline⟩]
      else l ++ [⟨location, type, stdev, baseline⟩]

/-- Embedding of `count_edges` (utils.c): walks every node from the given
one onward, counting each node visited (the sentinel included). -/
def count_edges (l : List Edge) : Int := l.length

/-- A sequence of `add_edge` calls folded over the list, mirroring the C
caller pattern `tail = add_edge(tail, ...)` repeated. -/
def add_edges (l : List Edge) (items : List (Int × Int × ℚ × ℚ)) : List Edge :=
  items.foldl (fun acc it => add_edge acc it.1 it.2.1 it.2.2.1 it.2.2.2) l

/-! ## Cusum level lists (`initialize_levels`, `add_cusum_level`) -/

/-- One `cusumlevel` node (utils.h `struct Cusumlevel`), restricted to the
fields `add_cusum_level` writes. -/
structure CusumLevelNode where
  current : ℚ
  length : Int
  deriving Repr, DecidableEq

/-- Embedding of the success path of `initialize_levels` (utils.c): one
zeroed node, `current = 0`, `length = 0`. -/
def initialize_levels : List CusumLevelNode := [⟨0, 0⟩]

/-- Embedding of `add_cusum_level` (utils.c): a fresh tail node is
allocated only when the existing tail's `length` is strictly positive;
otherwise the tail is overwritten in place. -/
def add_cusum_level (l : List CusumLevelNode) (current : ℚ) (length : Int) :
    List CusumLevelNode :=
  match l.getLast? with
  | none => l
  | some lastlevel =>
      if 0 < lastlevel.length then l ++ [⟨current, length⟩]
      else l.dropLast ++ [⟨current, length⟩]

/-! ## Input file registry (`initialize_input_files`, `add_input_file`)

The settings file for the instrument-native format is a sequence of
`key=value` lines; `add_input_file` dispatches on the key via `strcmp`.
The parser is modelled at the key/value level: each line carries one of the
recognized keys (or `other` for an unrecognized one) and its numeric value.
File system access is abstracted: `add_input_file` receives the byte size
that the `fseeko64`/`ftello64` probe of the data file would report. -/

/-- Recognized settings-file keys (unrecognized keys collapse to `other`). -/
inductive SettingsKey where
  | TIAgain
  | samplerate
  | preADCgain
  | pAoffset
  | ADCvref
  | mytimestamp
  | ADCbits
  | other
  deriving Repr, DecidableEq

/-- Calibration block parsed from the chimera settings file
(utils.h `struct Chimera`). -/
structure Chimera where
  samplerate : ℚ
  TIAgain : ℚ
  preADCgain : ℚ
  currentoffset : ℚ
  ADCvref : ℚ
  ADCbits : Int
  deriving Repr, DecidableEq

/-- A zeroed `chimera` block, as produced by `calloc`. -/
def zeroChimera : Chimera := ⟨0, 0, 0, 0, 0, 0⟩

/-- One `input_file` node (utils.h `struct Input_File`), with the `next`
pointer absorbed by the list abstraction and the file handle reduced to an
open/closed flag. -/
structure InputFile where
  dataFileOpen : Bool
  timestamp : ℚ
  length : Int
  offset : Int
  daqsetup : Option Chimera
  deriving Repr, DecidableEq

/-- Embedding of `initialize_input_files` (utils.c): a zeroed head node,
with a zeroed `chimera` block attached when the datatype is `CHIMERA`. -/
def initialize_input_files (datatype : Int) : List InputFile :=
  [{ dataFileOpen := false, timestamp := 0, length := 0, offset := 0,
     daqsetup := if datatype = CHIMERA then some zeroChimera else none }]

/-- One iteration of the settings-parsing loop in `add_input_file`: the
chain of `strcmp` dispatches, including the `if`/`else if` pairing of
`mytimestamp` and `SETUP_ADCBITS` (a single line carries a single key, so
the pairing behaves like independent tests here). -/
def applySetting (node : InputFile) (kv : SettingsKey × ℚ) : InputFile :=
  match kv.1 with
  | SettingsKey.TIAgain =>
      { node with daqsetup := node.daqsetup.map fun d => { d with TIAgain := kv.2 } }
  | SettingsKey.samplerate =>
      { node with daqsetup := node.daqsetup.map fun d => { d with samplerate := kv.2 } }
  | SettingsKey.preADCgain =>
      { node with daqsetup := node.daqsetup.map fun d => { d with preADCgain := kv.2 } }
  | SettingsKey.pAoffset =>
      { node with daqsetup := node.daqsetup.map fun d => { d with currentoffset := kv.2 } }
  | SettingsKey.ADCvref =>
      { node with daqsetup := node.daqsetup.map fun d => { d with ADCvref := kv.2 } }
  | SettingsKey.mytimestamp => { node with timestamp := kv.2 }
  | SettingsKey.ADCbits =>
      { node with daqsetup := node.daqsetup.map fun d => { d with ADCbits := ⌊kv.2⌋ } }
  | SettingsKey.other => node

/-- Per-sample byte count computed by the `switch(datatype)` in
`add_input_file`; the product for the generic format is stored into a
`uint16_t`, hence the reduction modulo 2^16. -/
def sample_size_bytes (datatype : Int) (n_arrays data_size : Int) : Int :=
  if datatype = CHIMERA then 2
  else if datatype = BINARY then (data_size * n_arrays) % 65536
  else 0

/-- Header byte count computed by the same `switch`. -/
def header_bytes_of (datatype : Int) (header_bytes : Int) : Int :=
  if datatype = CHIMERA then 0
  else if datatype = BINARY then header_bytes
  else 0

/-- The zeroed node `calloc`ed for a new list entry in `add_input_file`,
with a zeroed `chimera` block attached for the chimera format. -/
def fresh_input_node (datatype : Int) : InputFile :=
  { dataFileOpen := false, timestamp := 0, length := 0, offset := 0,
    daqsetup := if datatype = CHIMERA then some zeroChimera else none }

/-- The body of `add_input_file` acting on the node being registered
(`insert` in the C source): clear the offset, parse the settings file for
the chimera format, probe the data file's byte size and close it again,
set `length = (fileSize - headerBytes) / sampleSizeBytes` (C `int64_t`
division), and give non-chimera files the synthetic timestamp
`current->timestamp + 1` (`lastTimestamp` is `current->timestamp`). -/
def parsed_node (node : InputFile) (settings : List (SettingsKey × ℚ))
    (datatype : Int) (n_arrays data_size header_bytes : Int)
    (fileSize : Int) : InputFile :=
  { (if datatype = CHIMERA then settings.foldl applySetting { node with offset := 0 }
      else { node with offset := 0 }) with
    length := (fileSize - header_bytes_of datatype header_bytes) /
      sample_size_bytes datatype n_arrays data_size
  , dataFileOpen := false }

/-- Final timestamp step of `add_input_file`: only non-chimera files
receive the synthetic `current->timestamp + 1`. -/
def register_node (node : InputFile) (lastTimestamp : ℚ)
    (settings : List (SettingsKey × ℚ)) (datatype : Int)
    (n_arrays data_size header_bytes : Int) (fileSize : Int) : InputFile :=
  if datatype ≠ CHIMERA then
    { parsed_node node settings datatype n_arrays data_size header_bytes fileSize with
      timestamp := lastTimestamp + 1 }
  else parsed_node node settings datatype n_arrays data_size header_bytes fileSize

/-- Embedding of the success path of `add_input_file` (utils.c).  The old
tail is reused when its `timestamp` is not strictly positive (the
`headflag` branch, i.e. the not-yet-filled sentinel); otherwise a fresh
zeroed node is linked after it. -/
def add_input_file (l : List InputFile) (settings : List (SettingsKey × ℚ))
    (datatype : Int) (n_arrays data_size header_bytes : Int)
    (fileSize : Int) : List InputFile :=
  match l.getLast? with
  | none => l
  | some last =>
      if 0 < last.timestamp then
        l ++ [register_node (fresh_input_node datatype) last.timestamp settings
                datatype n_arrays data_size header_bytes fileSize]
      else
        l.dropLast ++ [register_node last last.timestamp settings
                datatype n_arrays data_size header_bytes fileSize]

/-- Embedding of `get_filesize` (utils.c): sum of the `length` fields over
the whole list. -/
def get_filesize (l : List InputFile) : Int :=
  l.foldl (fun acc f => acc + f.length) 0

/-! ## Checked allocation layer and error propagation

`calloc_and_check` and `fopen64_and_check` set the sticky global
`errorcode` via `fatal` when the underlying allocation or open fails, and
return the null result.  The allocator itself is an external oracle: each
call is modelled with a boolean saying whether `calloc` returned a block.
A caller that dereferences the returned pointer without first checking
`errorcode` crashes when the pointer is null; that outcome is modelled as
`none` in an `Option`-valued run function, while `some (result, ec)` means
the function returned normally with result `result` and final error code
`ec`. -/

/-- Embedding of `calloc_and_check` (utils.c): if the allocator produced a
block it is returned with `errorcode` untouched; a null return from
`calloc` prints a diagnostic and `fatal` sets `errorcode = ERR_MEM`.  The
`num` and `size` arguments are carried to show that no special case exists
for `num = 0`: the outcome depends only on the allocator. -/
def calloc_and_check (num size : Int) (allocReturnsBlock : Bool) (ec : Int) :
    Option Unit × Int :=
  if allocReturnsBlock then (some (), ec) else (none, ERR_MEM)

/-- Run of `initialize_edges` under an explicit allocator outcome: the code
checks `errorcode != 0` immediately after `calloc_and_check` and returns
NULL before touching the block, so it never dereferences a null pointer. -/
def initialize_edges_run (allocReturnsBlock : Bool) (ec : Int) :
    Option (Option (List Edge) × Int) :=
  let r := calloc_and_check 1 1 allocReturnsBlock ec
  if r.2 ≠ 0 then some (none, r.2)
  else
    match r.1 with
    | some _ => some (some initialize_edges, r.2)
    | none => none

/-- Run of `initialize_levels` under an explicit allocator outcome: the
code performs no `errorcode` check at all and immediately executes
`head->current = 0`, so a null return from the allocation layer is
dereferenced (`none`, the crash outcome). -/
def initialize_levels_run (allocReturnsBlock : Bool) (ec : Int) :
    Option (Option (List CusumLevelNode) × Int) :=
  let r := calloc_and_check 1 1 allocReturnsBlock ec
  match r.1 with
  | some _ => some (some initialize_levels, r.2)
  | none => none

/-- Run of the allocating branch of `add_cusum_level` (tail `length > 0`)
under an explicit allocator outcome: `lastlevel->next` is assigned the
`calloc_and_check` result and dereferenced on the next line without any
`errorcode` check, so allocation failure is a crash (`none`). -/
def add_cusum_level_run (l : List CusumLevelNode) (current : ℚ) (length : Int)
    (allocReturnsBlock : Bool) (ec : Int) :
    Option (Option (List CusumLevelNode) × Int) :=
  match l.getLast? with
  | none => none
  | some lastlevel =>
      if 0 < lastlevel.length then
        let r := calloc_and_check 1 1 allocReturnsBlock ec
        match r.1 with
        | some _ => some (some (add_cusum_level l current length), r.2)
        | none => none
      else some (some (add_cusum_level l current length), ec)

/-! ## Real-valued formulas (`ARL`, `initialize_baseline`,
`filter_signal_wt`)

C `double` arithmetic in these routines is modelled over `ℝ`.  A C cast of
a `double` to an integer type truncates toward zero, which is `⌊x⌋` for
nonnegative `x` and `⌈x⌉` for negative `x`.  Where the rounding of a libm
call is itself decisive (the `pow` feeding the baseline bin count), the
libm's returned double is an explicit oracle input, a rational — every
binary64 value is one — constrained by an accuracy hypothesis relative to
the exact real function at the actual double arguments. -/

/-- Truncation toward zero of a real number, the semantics of a C
`(int64_t)` or `(int)` cast applied to a `double`. -/
noncomputable def ctrunc (x : ℝ) : Int := if 0 ≤ x then ⌊x⌋ else ⌈x⌉

/-- Truncation toward zero of a rational, the same C cast semantics on an
exactly represented binary64 value. -/
def ratTrunc (q : ℚ) : Int := if 0 ≤ q then ⌊q⌋ else ⌈q⌉

/-- The binary64 value of the C expression `1.0/3.0`: the double nearest
to 1/3, namely `6004799503160661 / 2^54`, which lies `1/(3*2^54)` strictly
below 1/3. -/
def double_one_third : ℚ := 6004799503160661 / 18014398509481984

/-- The double `20 - 2^-48` (one ulp below 20): the value of
`pow(8000, 1.0/3.0)` returned by any libm accurate to within 0.9 ulp — in
particular the correctly rounded result, since the exact value of
`8000 ^ double_one_third` lies about 0.94 ulp below 20. -/
def powResult_8000 : ℚ := 5629499534213119 / 281474976710656

/-- Embedding of `ARL` (utils.c line 707). -/
noncomputable def ARL (length : Int) (sigma mun h : ℝ) : ℝ :=
  (Real.exp (-2 * mun * (h / sigma + 1.166)) - 1 + 2 * mun * (h / sigma + 1.166)) /
      (2 * mun * mun) - (length : ℝ)

/-- Baseline histogram geometry (utils.h `struct Baseline_struct`), with
the `current` bin-center array modelled as a function of the bin index. -/
structure BaselineStruct where
  baseline_min : ℝ
  baseline_max : ℝ
  range : ℝ
  numbins : Int
  delta : ℝ
  current : Int → ℝ

/-- Embedding of the success path of `initialize_baseline` (utils.c):
`numbins = (int64_t)(2 * pow(readlength, 1.0/3.0))`,
`delta = range / numbins`, and the loop filling
`current[i] = baseline_min + i * delta`.  The binary64 computation is
embedded through its decisive intermediate: `powResult` is the double the
platform libm returns for `pow(readlength, 1.0/3.0)` (the `int64_t`
argument converts to double exactly below `2^53`, and the exponent
actually passed is `double_one_third`, not 1/3); the multiplication by 2
and the `(int64_t)` cast of the product are then exact, so
`numbins = ratTrunc (2 * powResult)`.  The libm's accuracy is a hypothesis
of the theorems, never assumed by the definition. -/
noncomputable def initialize_baseline (baseline_min baseline_max : ℝ)
    (powResult : ℚ) : BaselineStruct :=
  let range := baseline_max - baseline_min
  let numbins : Int := ratTrunc (2 * powResult)
  let delta := range / (numbins : ℝ)
  { baseline_min := baseline_min
  , baseline_max := baseline_max
  , range := range
  , numbins := numbins
  , delta := delta
  , current := fun i => baseline_min + (i : ℝ) * delta }

/-- Decomposition depth chosen by `filter_signal_wt`
(wavelet_filter.c line 43):
`(int)(log((double)length / ((double)filt_len - 1.0)) / log(2.0))`. -/
noncomputable def wavelet_levels (length filt_len : Int) : Int :=
  ctrunc (Real.log ((length : ℝ) / ((filt_len : ℝ) - 1)) / Real.log 2)

/-! ## Shared helper lemmas -/

/-- A C cast to an integer type agrees with `⌊·⌋` on nonnegative doubles. -/
theorem ctrunc_of_nonneg {x : ℝ} (hx : 0 ≤ x) : ctrunc x = ⌊x⌋ := if_pos hx

/-- A C cast to an integer type agrees with `⌈·⌉` on negative doubles. -/
theorem ctrunc_of_neg {x : ℝ} (hx : x < 0) : ctrunc x = ⌈x⌉ := if_neg (not_le.mpr hx)

/-- On nonnegative inputs `my_max` is `max`; in particular with
`event_order ≤ data_order` it returns `data_order`. -/
theorem my_max_of_le {a b : Int} (h : b ≤ a) : my_max a b = a := by
  unfold my_max
  split <;> omega

/-! ## C1 — padded-signal buffer size and inner view range -/

/-- C1 counterexample: for readlength = 4, dataOrder = 0, eventOrder = 2,
filterPadding = 0 the claimed index range `[-padding, readlength+padding)`
of the inner `signal` view leaves the allocated buffer: `signal` sits
`dataOrder + filterPadding = 0` doubles into the buffer, so index
`-padding = -2` maps to buffer offset `-2`. -/
theorem initialize_signal_range_cex :
    ¬ (∀ i : Int, -(paddingOf 0 2 0) ≤ i → i < 4 + paddingOf 0 2 0 →
        0 ≤ (initialize_signal 4 0 2 0 CHIMERA 1 1).signalOffset + i ∧
        (initialize_signal 4 0 2 0 CHIMERA 1 1).signalOffset + i <
          (initialize_signal 4 0 2 0 CHIMERA 1 1).paddedLen) := by
  intro hcl
  have h := hcl (-2) (by decide) (by decide)
  exact absurd h.1 (by decide)

/-- C1 amended: the padded buffer always has total length
`readlength + 2*(max(dataOrder, eventOrder) + filterPadding)`, and provided
`eventOrder ≤ dataOrder` (so that the view offset `dataOrder +
filterPadding` is at least the padding) the inner view supports every index
in `[-padding, readlength + padding)` without leaving the buffer. -/
theorem initialize_signal_padded_range (readlength data_order event_order filterpadding : Int)
    (datatype n_arrays data_size : Int)
    (hrl : 0 ≤ readlength) (hfp : 0 ≤ filterpadding)
    (heo : 0 ≤ event_order) (hde : event_order ≤ data_order) :
    (initialize_signal readlength data_order event_order filterpadding
        datatype n_arrays data_size).paddedLen =
      readlength + 2 * paddingOf data_order event_order filterpadding
    ∧ ∀ i : Int, -(paddingOf data_order event_order filterpadding) ≤ i →
        i < readlength + paddingOf data_order event_order filterpadding →
        0 ≤ (initialize_signal readlength data_order event_order filterpadding
              datatype n_arrays data_size).signalOffset + i ∧
          (initialize_signal readlength data_order event_order filterpadding
              datatype n_arrays data_size).signalOffset + i <
            (initialize_signal readlength data_order event_order filterpadding
              datatype n_arrays data_size).paddedLen := by
  have hmax := my_max_of_le hde
  constructor
  · rfl
  · intro i h1 h2
    unfold initialize_signal paddingOf at *
    rw [hmax] at h1 h2 ⊢
    constructor <;> simp only <;> omega

/-- C1 witness: a concrete admissible configuration. -/
theorem initialize_signal_padded_range_witness :
    ((0:Int) ≤ 4 ∧ (0:Int) ≤ 1 ∧ (0:Int) ≤ 2 ∧ (2:Int) ≤ 3) ∧
    ((initialize_signal 4 3 2 1 CHIMERA 1 1).paddedLen = 4 + 2 * paddingOf 3 2 1
    ∧ ∀ i : Int, -(paddingOf 3 2 1) ≤ i → i < 4 + paddingOf 3 2 1 →
        0 ≤ (initialize_signal 4 3 2 1 CHIMERA 1 1).signalOffset + i ∧
          (initialize_signal 4 3 2 1 CHIMERA 1 1).signalOffset + i <
            (initialize_signal 4 3 2 1 CHIMERA 1 1).paddedLen) :=
  ⟨by decide,
   initialize_signal_padded_range 4 3 2 1 CHIMERA 1 1
     (by decide) (by decide) (by decide) (by decide)⟩

/-! ## C2 — counting edges -/

/-- C2 counterexample: `count_edges` counts every node it visits, the
sentinel included, so a freshly initialized (sentinel-only) list counts 1,
not 0. -/
theorem count_edges_fresh_cex :
    count_edges initialize_edges = 1 ∧ count_edges initialize_edges ≠ 0 := by
  decide

/-- Appending an edge to a list whose tail is already filled
(`type ≠ HEAD`) links a fresh node after the tail. -/
theorem add_edge_of_filled {l : List Edge} {e : Edge}
    (hl : l.getLast? = some e) (he : e.type ≠ HEAD)
    (loc t : Int) (s b : ℚ) :
    add_edge l loc t s b = l ++ [⟨loc, t, s, b⟩] := by
  unfold add_edge
  rw [hl]
  simp only [if_neg he]

/-- Folding filled appends over a list with a filled tail grows the list
by one node per append. -/
theorem add_edges_length_aux (items : List (Int × Int × ℚ × ℚ)) :
    ∀ (l : List Edge) (e : Edge), l.getLast? = some e → e.type ≠ HEAD →
      (∀ it ∈ items, it.2.1 ≠ HEAD) →
      (add_edges l items).length = l.length + items.length := by
  induction items with
  | nil =>
      intro l e _ _ _
      simp [add_edges]
  | cons it rest ih =>
      intro l e hl he hty
      have hstep := add_edge_of_filled hl he it.1 it.2.1 it.2.2.1 it.2.2.2
      have hfold : add_edges l (it :: rest) =
          add_edges (l ++ [⟨it.1, it.2.1, it.2.2.1, it.2.2.2⟩]) rest := by
        simp [add_edges, hstep]
      rw [hfold, ih (l ++ [⟨it.1, it.2.1, it.2.2.1, it.2.2.2⟩]) ⟨it.1, it.2.1, it.2.2.1, it.2.2.2⟩
        (List.getLast?_concat l) (hty it (by simp)) (fun x hx => hty x (by simp [hx]))]
      simp
      omega

/-- C2 amended: `count_edges` on a freshly initialized (sentinel-only)
list returns 1 — the traversal counts the sentinel node itself — and after
`k ≥ 1` successful `add_edge` appends, each carrying a type other than the
reserved sentinel tag `HEAD`, it returns `k` (the first append overwrites
the sentinel in place, each later one links a fresh node). -/
theorem count_edges_after_appends (items : List (Int × Int × ℚ × ℚ))
    (hne : items ≠ []) (hty : ∀ it ∈ items, it.2.1 ≠ HEAD) :
    count_edges (add_edges initialize_edges items) = items.length := by
  match items, hne with
  | it :: rest, _ =>
      have hfirst : add_edge initialize_edges it.1 it.2.1 it.2.2.1 it.2.2.2 =
          [⟨it.1, it.2.1, it.2.2.1, it.2.2.2⟩] := by
        simp [add_edge, initialize_edges]
      have hfold : add_edges initialize_edges (it :: rest) =
          add_edges [⟨it.1, it.2.1, it.2.2.1, it.2.2.2⟩] rest := by
        simp [add_edges, hfirst]
      rw [count_edges, hfold,
        add_edges_length_aux rest [⟨it.1, it.2.1, it.2.2.1, it.2.2.2⟩]
          ⟨it.1, it.2.1, it.2.2.1, it.2.2.2⟩ rfl (hty it (by simp))
          (fun x hx => hty x (by simp [hx]))]
      simp
      omega

/-- C2 witness: a single append with type 1. -/
theorem count_edges_after_appends_witness :
    (([((5:Int), (1:Int), (0:ℚ), (0:ℚ))] : List (Int × Int × ℚ × ℚ)) ≠ []
      ∧ ∀ it ∈ ([((5:Int), (1:Int), (0:ℚ), (0:ℚ))] : List (Int × Int × ℚ × ℚ)),
          it.2.1 ≠ HEAD)
    ∧ count_edges (add_edges initialize_edges [((5:Int), (1:Int), (0:ℚ), (0:ℚ))]) =
        ([((5:Int), (1:Int), (0:ℚ), (0:ℚ))] : List (Int × Int × ℚ × ℚ)).length :=
  ⟨⟨by decide, by decide⟩,
   count_edges_after_appends [((5:Int), (1:Int), (0:ℚ), (0:ℚ))] (by decide) (by decide)⟩

/-! ## C10 — cusum-level sentinel discipline -/

/-- `add_cusum_level` in closed form, given the tail node. -/
theorem add_cusum_level_eq {l : List CusumLevelNode} {lastlevel : CusumLevelNode}
    (hl : l.getLast? = some lastlevel) (c : ℚ) (len : Int) :
    add_cusum_level l c len =
      if 0 < lastlevel.length then l ++ [⟨c, len⟩] else l.dropLast ++ [⟨c, len⟩] := by
  unfold add_cusum_level
  rw [hl]

/-- C10: the sentinel test of `add_cusum_level` is the tail's `length`
field alone — a tail with `length ≤ 0` is overwritten in place (no growth),
a fresh node is linked only for a strictly positive tail length, and a
level appended with `length = 0` is overwritten by the next append, leaving
the same node count as if it had never been appended. -/
theorem add_cusum_level_spec (l : List CusumLevelNode) (lastlevel : CusumLevelNode)
    (hl : l.getLast? = some lastlevel) (c : ℚ) (len : Int) :
    (lastlevel.length ≤ 0 →
        add_cusum_level l c len = l.dropLast ++ [⟨c, len⟩] ∧
        (add_cusum_level l c len).length = l.length)
    ∧ (0 < lastlevel.length →
        add_cusum_level l c len = l ++ [⟨c, len⟩] ∧
        (add_cusum_level l c len).length = l.length + 1)
    ∧ (∀ c2 : ℚ, ∀ len2 : Int,
        (add_cusum_level (add_cusum_level l c 0) c2 len2).length =
          (add_cusum_level l c2 len2).length ∧
        (add_cusum_level (add_cusum_level l c 0) c2 len2).getLast? = some ⟨c2, len2⟩) := by
  have hnil : l ≠ [] := by
    intro h
    rw [h] at hl
    exact absurd hl (by simp)
  have hlen : 1 ≤ l.length := List.length_pos.mpr hnil
  refine ⟨fun hle => ?_, fun hpos => ?_, fun c2 len2 => ?_⟩
  · rw [add_cusum_level_eq hl, if_neg (not_lt.mpr hle)]
    refine ⟨rfl, ?_⟩
    simp [List.length_dropLast]
    omega
  · rw [add_cusum_level_eq hl, if_pos hpos]
    exact ⟨rfl, by simp⟩
  · have hzero : add_cusum_level l c 0 =
        if 0 < lastlevel.length then l ++ [⟨c, 0⟩] else l.dropLast ++ [⟨c, 0⟩] :=
      add_cusum_level_eq hl c 0
    by_cases hpos : 0 < lastlevel.length
    · rw [if_pos hpos] at hzero
      have htail : (add_cusum_level l c 0).getLast? = some ⟨c, 0⟩ := by
        rw [hzero]
        exact List.getLast?_concat l
      rw [add_cusum_level_eq htail, if_neg (by simp), hzero,
        List.dropLast_concat, add_cusum_level_eq hl, if_pos hpos]
      exact ⟨rfl, List.getLast?_concat l⟩
    · rw [if_neg hpos] at hzero
      have htail : (add_cusum_level l c 0).getLast? = some ⟨c, 0⟩ := by
        rw [hzero]
        exact List.getLast?_concat l.dropLast
      rw [add_cusum_level_eq htail, if_neg (by simp), hzero,
        List.dropLast_concat, add_cusum_level_eq hl, if_neg hpos]
      exact ⟨rfl, List.getLast?_concat l.dropLast⟩

/-- C10 witness: a list with one filled level node. -/
theorem add_cusum_level_spec_witness :
    (([⟨1, 5⟩] : List CusumLevelNode).getLast? = some ⟨1, 5⟩)
    ∧ (((⟨1, 5⟩ : CusumLevelNode).length ≤ 0 →
        add_cusum_level [⟨1, 5⟩] 2 3 = ([⟨1, 5⟩] : List CusumLevelNode).dropLast ++ [⟨2, 3⟩] ∧
        (add_cusum_level [⟨1, 5⟩] 2 3).length = ([⟨1, 5⟩] : List CusumLevelNode).length)
    ∧ (0 < (⟨1, 5⟩ : CusumLevelNode).length →
        add_cusum_level [⟨1, 5⟩] 2 3 = [⟨1, 5⟩] ++ [⟨2, 3⟩] ∧
        (add_cusum_level [⟨1, 5⟩] 2 3).length = ([⟨1, 5⟩] : List CusumLevelNode).length + 1)
    ∧ (∀ c2 : ℚ, ∀ len2 : Int,
        (add_cusum_level (add_cusum_level [⟨1, 5⟩] 2 0) c2 len2).length =
          (add_cusum_level [⟨1, 5⟩] c2 len2).length ∧
        (add_cusum_level (add_cusum_level [⟨1, 5⟩] 2 0) c2 len2).getLast? =
          some ⟨c2, len2⟩)) :=
  ⟨by decide, add_cusum_level_spec [⟨1, 5⟩] ⟨1, 5⟩ (by decide) 2 3⟩

/-! ## C4 — error-code checking after the allocation layer -/

/-- C4: `initialize_levels` performs no `errorcode` check after
`calloc_and_check` and immediately executes `head->current = 0`, and the
allocating branch of `add_cusum_level` dereferences `lastlevel->next`
straight after the allocation, so under allocation failure both crash on a
null pointer (outcome `none`) instead of returning a null result; by
contrast `initialize_edges`, which follows the documented discipline,
returns null with the sticky code `ERR_MEM` under the same failure. -/
theorem initialize_levels_unchecked_alloc :
    initialize_levels_run false 0 = none
    ∧ add_cusum_level_run [⟨1, 5⟩] 2 7 false 0 = none
    ∧ initialize_edges_run false 0 = some (none, ERR_MEM) := by
  decide

/-! ## C3 — chimera timestamps and registration order -/

/-- A settings line whose key is not `mytimestamp` never changes the
node's timestamp. -/
theorem applySetting_timestamp (n : InputFile) (kv : SettingsKey × ℚ)
    (h : kv.1 ≠ SettingsKey.mytimestamp) :
    (applySetting n kv).timestamp = n.timestamp := by
  obtain ⟨k, v⟩ := kv
  cases k <;> first | rfl | exact absurd rfl h

/-- Folding a settings file with no `mytimestamp` line leaves the
timestamp unchanged. -/
theorem foldl_applySetting_timestamp (settings : List (SettingsKey × ℚ)) :
    ∀ n : InputFile, (∀ kv ∈ settings, kv.1 ≠ SettingsKey.mytimestamp) →
      (settings.foldl applySetting n).timestamp = n.timestamp := by
  induction settings with
  | nil =>
      intro n _
      rfl
  | cons kv rest ih =>
      intro n h
      rw [List.foldl_cons, ih (applySetting n kv) (fun x hx => h x (by simp [hx])),
        applySetting_timestamp n kv (h kv (by simp))]

/-- `add_input_file` in closed form, given the tail node. -/
theorem add_input_file_eq {l : List InputFile} {last : InputFile}
    (hl : l.getLast? = some last) (settings : List (SettingsKey × ℚ))
    (datatype n_arrays data_size header_bytes fileSize : Int) :
    add_input_file l settings datatype n_arrays data_size header_bytes fileSize =
      if 0 < last.timestamp then
        l ++ [register_node (fresh_input_node datatype) last.timestamp settings
                datatype n_arrays data_size header_bytes fileSize]
      else
        l.dropLast ++ [register_node last last.timestamp settings
                datatype n_arrays data_size header_bytes fileSize] := by
  unfold add_input_file
  rw [hl]

/-- Registering a chimera file whose settings contain no `mytimestamp`
line never changes the node's timestamp: the `previous + 1` assignment is
guarded by `datatype != CHIMERA`. -/
theorem register_node_chimera_timestamp (node : InputFile) (lastTimestamp : ℚ)
    (settings : List (SettingsKey × ℚ))
    (hset : ∀ kv ∈ settings, kv.1 ≠ SettingsKey.mytimestamp)
    (n_arrays data_size header_bytes fileSize : Int) :
    (register_node node lastTimestamp settings CHIMERA
        n_arrays data_size header_bytes fileSize).timestamp = node.timestamp := by
  unfold register_node parsed_node
  rw [if_neg (fun hne => hne rfl), if_pos rfl]
  show (settings.foldl applySetting { node with offset := 0 }).timestamp = node.timestamp
  rw [foldl_applySetting_timestamp settings _ hset]

/-- C3 counterexample: registering two instrument-native files whose
settings contain no `mytimestamp` key (sizes 200 and 400 bytes, hence 100
and 200 samples) leaves a single node of timestamp 0 — the second
registration reused and overwrote the first node instead of appending, so
the timestamps are not `t0+1, t0+2` and the first file's 100 samples are
lost from the total-length traversal. -/
theorem add_input_file_chimera_timestamp_cex :
    (add_input_file (add_input_file (initialize_input_files CHIMERA)
        [(SettingsKey.TIAgain, 10)] CHIMERA 0 0 0 200)
        [(SettingsKey.TIAgain, 10)] CHIMERA 0 0 0 400).length = 1
    ∧ get_filesize (add_input_file (add_input_file (initialize_input_files CHIMERA)
        [(SettingsKey.TIAgain, 10)] CHIMERA 0 0 0 200)
        [(SettingsKey.TIAgain, 10)] CHIMERA 0 0 0 400) = 200
    ∧ ∀ n ∈ add_input_file (add_input_file (initialize_input_files CHIMERA)
        [(SettingsKey.TIAgain, 10)] CHIMERA 0 0 0 200)
        [(SettingsKey.TIAgain, 10)] CHIMERA 0 0 0 400, n.timestamp = 0 := by
  decide

/-- C3 amended: the synthetic `previous.timestamp + 1` assignment applies
only to non-instrument-native formats.  A chimera file whose settings lack
`mytimestamp` keeps the zeroed timestamp: registered after a properly
timestamped tail it is appended with timestamp 0 (not `t0+1`), and the
next registration then reuses (overwrites) that node, so the list does not
grow and concatenation order is not preserved. -/
theorem add_input_file_chimera_no_timestamp (l : List InputFile) (last : InputFile)
    (hl : l.getLast? = some last) (hpos : 0 < last.timestamp)
    (settings settings2 : List (SettingsKey × ℚ))
    (hset : ∀ kv ∈ settings, kv.1 ≠ SettingsKey.mytimestamp)
    (n_arrays data_size header_bytes s1 s2 : Int) :
    ∃ n1 : InputFile,
      add_input_file l settings CHIMERA n_arrays data_size header_bytes s1 = l ++ [n1]
      ∧ n1.timestamp = 0
      ∧ (add_input_file (l ++ [n1]) settings2 CHIMERA n_arrays data_size header_bytes s2).length
          = (l ++ [n1]).length := by
  refine ⟨register_node (fresh_input_node CHIMERA) last.timestamp settings
    CHIMERA n_arrays data_size header_bytes s1, ?_, ?_, ?_⟩
  · rw [add_input_file_eq hl settings CHIMERA n_arrays data_size header_bytes s1,
      if_pos hpos]
  · rw [register_node_chimera_timestamp _ _ settings hset n_arrays data_size header_bytes s1]
    rfl
  · have h0 : (register_node (fresh_input_node CHIMERA) last.timestamp settings
        CHIMERA n_arrays data_size header_bytes s1).timestamp = 0 := by
      rw [register_node_chimera_timestamp _ _ settings hset n_arrays data_size header_bytes s1]
      rfl
    rw [add_input_file_eq (List.getLast?_concat l) settings2 CHIMERA
        n_arrays data_size header_bytes s2,
      if_neg (by rw [h0]; exact lt_irrefl 0), List.dropLast_concat]
    simp

/-- C3 witness: a properly timestamped tail followed by two chimera
registrations without `mytimestamp`. -/
theorem add_input_file_chimera_no_timestamp_witness :
    (([(⟨false, 5, 100, 0, some zeroChimera⟩ : InputFile)] : List InputFile).getLast? =
        some ⟨false, 5, 100, 0, some zeroChimera⟩
      ∧ (0:ℚ) < (⟨false, 5, 100, 0, some zeroChimera⟩ : InputFile).timestamp
      ∧ ∀ kv ∈ ([(SettingsKey.TIAgain, (10:ℚ))] : List (SettingsKey × ℚ)),
          kv.1 ≠ SettingsKey.mytimestamp)
    ∧ ∃ n1 : InputFile,
        add_input_file [⟨false, 5, 100, 0, some zeroChimera⟩]
            [(SettingsKey.TIAgain, 10)] CHIMERA 1 1 0 200 =
          [(⟨false, 5, 100, 0, some zeroChimera⟩ : InputFile)] ++ [n1]
        ∧ n1.timestamp = 0
        ∧ (add_input_file ([(⟨false, 5, 100, 0, some zeroChimera⟩ : InputFile)] ++ [n1])
              [] CHIMERA 1 1 0 400).length =
            ([(⟨false, 5, 100, 0, some zeroChimera⟩ : InputFile)] ++ [n1]).length :=
  ⟨⟨by decide, by decide, by decide⟩,
   add_input_file_chimera_no_timestamp [⟨false, 5, 100, 0, some zeroChimera⟩]
     ⟨false, 5, 100, 0, some zeroChimera⟩ (by decide) (by decide)
     [(SettingsKey.TIAgain, 10)] [] (by decide) 1 1 0 200 400⟩

/-! ## C7 — decoded sample length and closed file handle -/

/-- The node written by `add_input_file` carries
`length = (fileSize - headerBytes) / sampleSizeBytes` and a closed data
file handle, whatever else the settings parse did to it. -/
theorem register_node_length_flag (node : InputFile) (lastTimestamp : ℚ)
    (settings : List (SettingsKey × ℚ))
    (datatype n_arrays data_size header_bytes fileSize : Int) :
    (register_node node lastTimestamp settings datatype
        n_arrays data_size header_bytes fileSize).length =
      (fileSize - header_bytes_of datatype header_bytes) /
        sample_size_bytes datatype n_arrays data_size
    ∧ (register_node node lastTimestamp settings datatype
        n_arrays data_size header_bytes fileSize).dataFileOpen = false := by
  unfold register_node parsed_node
  split <;> exact ⟨rfl, rfl⟩

/-- The tail of the list returned by `add_input_file` is the freshly
registered node, with the probed length and a closed handle. -/
theorem add_input_file_getLast (l : List InputFile) (last : InputFile)
    (hl : l.getLast? = some last) (settings : List (SettingsKey × ℚ))
    (datatype n_arrays data_size header_bytes fileSize : Int) :
    ∃ node : InputFile,
      (add_input_file l settings datatype n_arrays data_size header_bytes
          fileSize).getLast? = some node
      ∧ node.length = (fileSize - header_bytes_of datatype header_bytes) /
          sample_size_bytes datatype n_arrays data_size
      ∧ node.dataFileOpen = false := by
  rw [add_input_file_eq hl settings datatype n_arrays data_size header_bytes fileSize]
  by_cases hpos : 0 < last.timestamp
  · rw [if_pos hpos]
    exact ⟨_, List.getLast?_concat _,
      (register_node_length_flag _ _ settings datatype n_arrays data_size header_bytes fileSize).1,
      (register_node_length_flag _ _ settings datatype n_arrays data_size header_bytes fileSize).2⟩
  · rw [if_neg hpos]
    exact ⟨_, List.getLast?_concat _,
      (register_node_length_flag _ _ settings datatype n_arrays data_size header_bytes fileSize).1,
      (register_node_length_flag _ _ settings datatype n_arrays data_size header_bytes fileSize).2⟩

/-- C7: the registered node's sample length is
`(fileSizeBytes - headerBytes) / sampleSizeBytes` — sample size 2 and
header 0 for the instrument-native format, `n_arrays * data_size` and the
configured header for the generic format (the product must fit the
`uint16_t` it is stored in) — and the data file handle is closed after the
size probe. -/
theorem add_input_file_length_spec (l : List InputFile) (last : InputFile)
    (hl : l.getLast? = some last) (settings : List (SettingsKey × ℚ))
    (n_arrays data_size header_bytes fileSize : Int)
    (hszpos : 0 < data_size * n_arrays) (hszlt : data_size * n_arrays < 65536) :
    (∃ n : InputFile,
        (add_input_file l settings CHIMERA n_arrays data_size header_bytes
            fileSize).getLast? = some n
        ∧ n.length = (fileSize - 0) / 2 ∧ n.dataFileOpen = false)
    ∧ (∃ n : InputFile,
        (add_input_file l settings BINARY n_arrays data_size header_bytes
            fileSize).getLast? = some n
        ∧ n.length = (fileSize - header_bytes) / (n_arrays * data_size)
        ∧ n.dataFileOpen = false) := by
  have hbin : sample_size_bytes BINARY n_arrays data_size = n_arrays * data_size := by
    unfold sample_size_bytes
    rw [if_neg (by decide), if_pos rfl, Int.emod_eq_of_lt hszpos.le hszlt, mul_comm]
  constructor
  · have h := add_input_file_getLast l last hl settings CHIMERA
      n_arrays data_size header_bytes fileSize
    rwa [show header_bytes_of CHIMERA header_bytes = 0 from rfl,
      show sample_size_bytes CHIMERA n_arrays data_size = 2 from rfl] at h
  · have h := add_input_file_getLast l last hl settings BINARY
      n_arrays data_size header_bytes fileSize
    rwa [show header_bytes_of BINARY header_bytes = header_bytes from rfl, hbin] at h

/-- C7 witness: a generic binary file of 1000 bytes with a zero header,
one interleaved array and two-byte elements decodes to 500 samples. -/
theorem add_input_file_length_spec_witness :
    ((initialize_input_files BINARY).getLast? = some ⟨false, 0, 0, 0, none⟩
      ∧ (0:Int) < 2 * 1 ∧ (2 * 1 : Int) < 65536
      ∧ ((1000:Int) - 0) / ((1:Int) * 2) = 500)
    ∧ ((∃ n : InputFile,
        (add_input_file (initialize_input_files BINARY) [] CHIMERA 1 2 0
            1000).getLast? = some n
        ∧ n.length = ((1000:Int) - 0) / 2 ∧ n.dataFileOpen = false)
    ∧ (∃ n : InputFile,
        (add_input_file (initialize_input_files BINARY) [] BINARY 1 2 0
            1000).getLast? = some n
        ∧ n.length = ((1000:Int) - 0) / (1 * 2)
        ∧ n.dataFileOpen = false)) :=
  ⟨⟨by decide, by decide, by decide, by decide⟩,
   add_input_file_length_spec (initialize_input_files BINARY) ⟨false, 0, 0, 0, none⟩
     (by decide) [] 1 2 0 1000 (by decide) (by decide)⟩

/-! ## C5 — the ARL formula -/

/-- C5: `ARL` returns exactly
`(exp(-2*mun*(h/sigma+1.166)) - 1 + 2*mun*(h/sigma+1.166)) / (2*mun^2) - length`,
and at `length = 0` the residual term vanishes. -/
theorem ARL_spec (length : Int) (sigma mun h : ℝ) :
    ARL length sigma mun h =
      (Real.exp (-2 * mun * (h / sigma + 1.166)) - 1 + 2 * mun * (h / sigma + 1.166)) /
        (2 * mun ^ 2) - (length : ℝ)
    ∧ ARL 0 sigma mun h =
      (Real.exp (-2 * mun * (h / sigma + 1.166)) - 1 + 2 * mun * (h / sigma + 1.166)) /
        (2 * mun ^ 2) := by
  unfold ARL
  constructor
  · ring_nf
  · push_cast
    ring_nf

/-! ## C8 — zero-count allocation -/

/-- C8 counterexample: `calloc_and_check` has no special case for
`num = 0`; on a platform whose `calloc` returns NULL for a zero-size
request (which the C standard permits) the call reports out-of-memory,
setting the error classification to `ERR_MEM ≠ 0`. -/
theorem calloc_and_check_zero_cex :
    calloc_and_check 0 8 false 0 = (none, ERR_MEM) ∧ ERR_MEM ≠ 0 := by
  decide

/-- C8 amended: when the underlying allocator does hand back a (possibly
zero-length) block for the `num = 0` request, `calloc_and_check` returns
it and leaves the error classification untouched; the zero-size semantics
is decided by the platform allocator, not by this layer. -/
theorem calloc_and_check_zero_success (size ec : Int) :
    calloc_and_check 0 size true ec = (some (), ec) := rfl

/-! ## C6 — baseline histogram geometry -/

/-- The cube root (as `pow(x, 1.0/3.0)`) of 8000 is exactly 20. -/
theorem rpow_8000_third : ((8000:Int):ℝ) ^ ((1:ℝ)/3) = 20 := by
  have h20 : ((8000:Int):ℝ) = (20:ℝ) ^ (3:ℕ) := by norm_num
  have h3 : ((3:ℕ):ℝ) = (3:ℝ) := by norm_num
  rw [h20, one_div, ← h3, Real.pow_rpow_inv_natCast (by norm_num) (by norm_num)]

/-- The exact real value of `8000 ^ double_one_third` — what a correctly
rounded `pow(8000, 1.0/3.0)` would round — lies strictly between
`20 - 0.94*2^-48` and `20 - 0.9*2^-48`, i.e. about 0.94 ulp below 20.
Established through `log 8000 = 6*log 2 + 3*log 5 ∈ (8.9588, 9.011)` and
the elementary bounds `1 - x ≤ exp (-x) ≤ 1/(1+x)`. -/
theorem pow_8000_double_third_bounds :
    20 - (0.94:ℝ)/2^48 < ((8000:Int):ℝ) ^ ((double_one_third : ℚ) : ℝ)
    ∧ ((8000:Int):ℝ) ^ ((double_one_third : ℚ) : ℝ) < 20 - (0.9:ℝ)/2^48 := by
  have hexp8 : Real.exp 8 < 3125 := by
    have h1 : Real.exp 1 ^ (8:ℕ) = Real.exp 8 := by
      rw [← Real.exp_nat_mul]
      norm_num
    rw [← h1]
    calc Real.exp 1 ^ (8:ℕ) < 2.7182818286 ^ (8:ℕ) := by
          apply pow_lt_pow_left₀ Real.exp_one_lt_d9 (Real.exp_pos 1).le
          norm_num
      _ < 3125 := by norm_num
  have hlog5 : (1.6:ℝ) < Real.log 5 := by
    have h55 : Real.exp 8 < 5 ^ (5:ℕ) := by
      calc Real.exp 8 < 3125 := hexp8
        _ ≤ 5 ^ (5:ℕ) := by norm_num
    have h := (Real.lt_log_iff_exp_lt (by positivity : (0:ℝ) < 5 ^ (5:ℕ))).mpr h55
    rw [Real.log_pow] at h
    push_cast at h
    linarith
  have hL_lo : (8.9588:ℝ) < Real.log 8000 := by
    have h8000 : (8000:ℝ) = 2 ^ (6:ℕ) * 5 ^ (3:ℕ) := by norm_num
    rw [h8000, Real.log_mul (by positivity) (by positivity), Real.log_pow, Real.log_pow]
    push_cast
    nlinarith [Real.log_two_gt_d9, hlog5]
  have hL_hi : Real.log 8000 < 9.011 := by
    have h : Real.log 8000 < Real.log 8192 := Real.log_lt_log (by norm_num) (by norm_num)
    have h8192 : (8192:ℝ) = 2 ^ (13:ℕ) := by norm_num
    rw [h8192, Real.log_pow] at h
    push_cast at h
    nlinarith [Real.log_two_lt_d9]
  have hb : ((8000:Int):ℝ) = (8000:ℝ) := by norm_num
  have he : ((double_one_third : ℚ) : ℝ) = (1:ℝ)/3 + -(1/54043195528445952) := by
    unfold double_one_third
    push_cast
    norm_num
  have hthird : (8000:ℝ) ^ ((1:ℝ)/3) = 20 := by
    rw [← hb]
    exact rpow_8000_third
  have hP : ((8000:Int):ℝ) ^ ((double_one_third : ℚ) : ℝ) =
      20 * Real.exp (-(Real.log 8000 * (1/54043195528445952))) := by
    rw [hb, he, Real.rpow_add (by norm_num : (0:ℝ) < 8000), hthird,
      Real.rpow_def_of_pos (by norm_num : (0:ℝ) < 8000), mul_neg]
  rw [hP]
  have hA_lo : (8.9588:ℝ) * (1/54043195528445952) <
      Real.log 8000 * (1/54043195528445952) := by
    apply mul_lt_mul_of_pos_right hL_lo
    norm_num
  have hA_hi : Real.log 8000 * (1/54043195528445952) <
      (9.011:ℝ) * (1/54043195528445952) := by
    apply mul_lt_mul_of_pos_right hL_hi
    norm_num
  have hexp_dn : 1 - Real.log 8000 * (1/54043195528445952) ≤
      Real.exp (-(Real.log 8000 * (1/54043195528445952))) := by
    linarith [Real.add_one_le_exp (-(Real.log 8000 * (1/54043195528445952)))]
  have hexp_up : Real.exp (-(Real.log 8000 * (1/54043195528445952))) ≤
      1 / (1 + Real.log 8000 * (1/54043195528445952)) := by
    rw [Real.exp_neg, inv_eq_one_div]
    apply one_div_le_one_div_of_le (by linarith)
    linarith [Real.add_one_le_exp (Real.log 8000 * (1/54043195528445952))]
  constructor
  · nlinarith [hexp_dn, hA_hi]
  · have h1 : 20 * Real.exp (-(Real.log 8000 * (1/54043195528445952))) ≤
        20 * (1 / (1 + Real.log 8000 * (1/54043195528445952))) := by
      nlinarith [hexp_up]
    have h2 : 20 * (1 / (1 + Real.log 8000 * (1/54043195528445952))) <
        20 - (0.9:ℝ)/2^48 := by
      rw [mul_one_div, div_lt_iff₀ (by linarith)]
      nlinarith [hA_lo, hA_hi]
    linarith

/-- Any double returned by a libm accurate to within 0.9 ulp for
`pow(8000, 1.0/3.0)` makes the program's bin count
`(int64_t)(2 * pow(...))` equal to 39: the doubled value lies strictly
between 39 and 40. -/
theorem ratTrunc_39_of_close (p : ℚ)
    (hacc : |(p : ℝ) - ((8000:Int):ℝ) ^ ((double_one_third : ℚ) : ℝ)| ≤ (0.9:ℝ)/2^48) :
    ratTrunc (2 * p) = 39 := by
  have hb := pow_8000_double_third_bounds
  rw [abs_le] at hacc
  have hlo : (39:ℝ) < ((2 * p : ℚ) : ℝ) := by
    push_cast
    nlinarith [hacc.1, hb.1]
  have hhi : ((2 * p : ℚ) : ℝ) < 40 := by
    push_cast
    nlinarith [hacc.2, hb.2]
  have hloq : (39:ℚ) < 2 * p := by exact_mod_cast hlo
  have hhiq : 2 * p < (40:ℚ) := by exact_mod_cast hhi
  unfold ratTrunc
  rw [if_pos (by linarith), Int.floor_eq_iff]
  constructor
  · push_cast
    linarith
  · push_cast
    linarith

/-- C6 counterexample: at `readlength = 8000` the program does not produce
the claimed `floor(2*8000^(1/3)) = 40` bins.  The exponent the C code
passes to `pow` is the double `1.0/3.0 < 1/3`, whose exact power lies
about 0.94 ulp below 20, so any libm accurate to within 0.9 ulp — the
concrete double `powResult_8000 = 20 - 2^-48` is its correctly rounded
value — yields `(int64_t)(2 * pow(8000, 1.0/3.0)) = 39`, one below the
exact-real 40. -/
theorem initialize_baseline_8000_bins_cex :
    |(powResult_8000 : ℝ) - ((8000:Int):ℝ) ^ ((double_one_third : ℚ) : ℝ)| ≤ (0.9:ℝ)/2^48
    ∧ (initialize_baseline 0 1 powResult_8000).numbins = 39
    ∧ (initialize_baseline 0 1 powResult_8000).numbins ≠ 40
    ∧ ⌊2 * ((8000:Int):ℝ) ^ ((1:ℝ)/3)⌋ = 40 := by
  have hb := pow_8000_double_third_bounds
  have hcast : (powResult_8000 : ℝ) = 20 - 1/2^48 := by
    unfold powResult_8000
    push_cast
    norm_num
  have h39 : (initialize_baseline 0 1 powResult_8000).numbins = 39 := by
    show ratTrunc (2 * powResult_8000) = 39
    norm_num [ratTrunc, powResult_8000]
  refine ⟨?_, h39, ?_, ?_⟩
  · rw [hcast, abs_le]
    constructor
    · linarith [hb.2]
    · linarith [hb.1]
  · rw [h39]
    decide
  · rw [rpow_8000_third]
    norm_num

/-- C6 amended: `numbins` is the `int64_t` truncation of the binary64
product `2 * pow(readlength, 1.0/3.0)` — the exponent being the double
`1.0/3.0`, which is strictly below 1/3 — so at and near perfect cubes it
can fall one short of the exact `floor(2 * readlength^(1/3))`: at
`readlength = 8000`, under any libm accurate to within 0.9 ulp, the
program sets `numbins = 39`, not 40.  Relative to the computed bin count
the geometry is as specified: `delta = (baseline_max - baseline_min)/numbins`
and centers `baseline_min + i*delta`, strictly increasing and spanning
exactly `[baseline_min, baseline_max - delta]` for a positive bin count. -/
theorem initialize_baseline_spec_amended (bmin bmax : ℝ) (p : ℚ)
    (hlt : bmin < bmax) (hnb : 1 ≤ ratTrunc (2 * p)) :
    (initialize_baseline bmin bmax p).numbins = ratTrunc (2 * p)
    ∧ (initialize_baseline bmin bmax p).delta =
        (bmax - bmin) / (((initialize_baseline bmin bmax p).numbins : Int) : ℝ)
    ∧ (∀ i : Int, (initialize_baseline bmin bmax p).current i =
        bmin + (i : ℝ) * (initialize_baseline bmin bmax p).delta)
    ∧ (∀ i j : Int, 0 ≤ i → i < j →
        j < (initialize_baseline bmin bmax p).numbins →
        (initialize_baseline bmin bmax p).current i <
          (initialize_baseline bmin bmax p).current j)
    ∧ (initialize_baseline bmin bmax p).current 0 = bmin
    ∧ (initialize_baseline bmin bmax p).current
        ((initialize_baseline bmin bmax p).numbins - 1) =
        bmax - (initialize_baseline bmin bmax p).delta
    ∧ (|(p : ℝ) - ((8000:Int):ℝ) ^ ((double_one_third : ℚ) : ℝ)| ≤ (0.9:ℝ)/2^48 →
        (initialize_baseline bmin bmax p).numbins = 39
        ∧ (initialize_baseline bmin bmax p).numbins ≠
            ⌊2 * ((8000:Int):ℝ) ^ ((1:ℝ)/3)⌋) := by
  have hnbdef : (initialize_baseline bmin bmax p).numbins = ratTrunc (2 * p) := rfl
  have hnbpos : (0:ℝ) < (((initialize_baseline bmin bmax p).numbins : Int) : ℝ) := by
    rw [hnbdef]
    exact_mod_cast lt_of_lt_of_le (by norm_num) hnb
  have hdelta : (initialize_baseline bmin bmax p).delta =
      (bmax - bmin) / (((initialize_baseline bmin bmax p).numbins : Int) : ℝ) := rfl
  have hdpos : 0 < (initialize_baseline bmin bmax p).delta := by
    rw [hdelta]
    exact div_pos (sub_pos.mpr hlt) hnbpos
  have hcur : ∀ i : Int, (initialize_baseline bmin bmax p).current i =
      bmin + (i : ℝ) * (initialize_baseline bmin bmax p).delta := fun i => rfl
  refine ⟨hnbdef, hdelta, hcur, ?_, ?_, ?_, ?_⟩
  · intro i j _ hij _
    rw [hcur i, hcur j]
    have hc : (i:ℝ) < (j:ℝ) := by exact_mod_cast hij
    have := mul_lt_mul_of_pos_right hc hdpos
    linarith
  · rw [hcur 0]
    norm_num
  · rw [hcur _, hdelta]
    have hne : (((initialize_baseline bmin bmax p).numbins : Int) : ℝ) ≠ 0 :=
      ne_of_gt hnbpos
    push_cast
    field_simp
    ring
  · intro hacc
    have h39 : (initialize_baseline bmin bmax p).numbins = 39 := by
      rw [hnbdef]
      exact ratTrunc_39_of_close p hacc
    refine ⟨h39, ?_⟩
    rw [h39, rpow_8000_third]
    norm_num

/-- C6 witness: the correctly rounded `pow` value for `readlength = 8000`
over the range `[0, 1)`, giving 39 strictly increasing bins. -/
theorem initialize_baseline_spec_amended_witness :
    ((0:ℝ) < 1 ∧ 1 ≤ ratTrunc (2 * powResult_8000))
    ∧ ((initialize_baseline 0 1 powResult_8000).numbins = ratTrunc (2 * powResult_8000)
    ∧ (initialize_baseline 0 1 powResult_8000).delta =
        ((1:ℝ) - 0) / (((initialize_baseline 0 1 powResult_8000).numbins : Int) : ℝ)
    ∧ (∀ i : Int, (initialize_baseline 0 1 powResult_8000).current i =
        0 + (i : ℝ) * (initialize_baseline 0 1 powResult_8000).delta)
    ∧ (∀ i j : Int, 0 ≤ i → i < j →
        j < (initialize_baseline 0 1 powResult_8000).numbins →
        (initialize_baseline 0 1 powResult_8000).current i <
          (initialize_baseline 0 1 powResult_8000).current j)
    ∧ (initialize_baseline 0 1 powResult_8000).current 0 = 0
    ∧ (initialize_baseline 0 1 powResult_8000).current
        ((initialize_baseline 0 1 powResult_8000).numbins - 1) =
        1 - (initialize_baseline 0 1 powResult_8000).delta
    ∧ (|(powResult_8000 : ℝ) - ((8000:Int):ℝ) ^ ((double_one_third : ℚ) : ℝ)| ≤ (0.9:ℝ)/2^48 →
        (initialize_baseline 0 1 powResult_8000).numbins = 39
        ∧ (initialize_baseline 0 1 powResult_8000).numbins ≠
            ⌊2 * ((8000:Int):ℝ) ^ ((1:ℝ)/3)⌋)) :=
  ⟨⟨by norm_num, by norm_num [ratTrunc, powResult_8000]⟩,
   initialize_baseline_spec_amended 0 1 powResult_8000 (by norm_num)
     (by norm_num [ratTrunc, powResult_8000])⟩

/-! ## C9 — wavelet decomposition depth -/

/-- C9 counterexample: the C expression truncates toward zero, which
differs from `floor` when the log ratio is negative and fractional: with
`N = 3` samples and a 9-tap wavelet, `log2(3/8) ≈ -1.415`, the code picks
depth `-1` while the claimed `floor` is `-2`. -/
theorem wavelet_levels_cex :
    wavelet_levels 3 9 = -1
    ∧ ⌊Real.logb 2 (((3:Int):ℝ) / (((9:Int):ℝ) - 1))⌋ = -2
    ∧ wavelet_levels 3 9 ≠ ⌊Real.logb 2 (((3:Int):ℝ) / (((9:Int):ℝ) - 1))⌋ := by
  have hrat : ((3:Int):ℝ) / (((9:Int):ℝ) - 1) = 3/8 := by norm_num
  have hub : Real.logb 2 ((3:ℝ)/8) < -1 := by
    rw [Real.logb_lt_iff_lt_rpow (by norm_num) (by norm_num),
      show ((-1:ℝ)) = ((-1 : Int) : ℝ) by norm_num, Real.rpow_intCast]
    norm_num
  have hlb : (-2:ℝ) < Real.logb 2 ((3:ℝ)/8) := by
    rw [Real.lt_logb_iff_rpow_lt (by norm_num) (by norm_num),
      show ((-2:ℝ)) = ((-2 : Int) : ℝ) by norm_num, Real.rpow_intCast]
    norm_num
  have hlog : Real.log (((3:Int):ℝ) / (((9:Int):ℝ) - 1)) / Real.log 2 =
      Real.logb 2 ((3:ℝ)/8) := by
    rw [hrat]
    rfl
  have hceil : ⌈Real.logb 2 ((3:ℝ)/8)⌉ = -1 := by
    rw [Int.ceil_eq_iff]
    constructor
    · push_cast
      linarith
    · push_cast
      linarith
  have hfloor : ⌊Real.logb 2 ((3:ℝ)/8)⌋ = -2 := by
    rw [Int.floor_eq_iff]
    constructor
    · push_cast
      linarith
    · push_cast
      linarith
  have hlev : wavelet_levels 3 9 = -1 := by
    unfold wavelet_levels
    rw [hlog, ctrunc_of_neg (by linarith), hceil]
  refine ⟨hlev, ?_, ?_⟩
  · rw [hrat, hfloor]
  · rw [hlev, hrat, hfloor]
    decide

/-- C9 amended: the decomposition depth is the C truncation toward zero of
`log2(N/(filterTapCount-1))`, which agrees with the claimed
`floor(log2(N/(filterTapCount-1)))` whenever `N ≥ filterTapCount - 1`
(log ratio nonnegative); for shorter signals the truncation rounds up
instead. -/
theorem wavelet_levels_floor (N taps : Int) (htaps : 2 ≤ taps)
    (hN : taps - 1 ≤ N) :
    wavelet_levels N taps = ⌊Real.logb 2 ((N:ℝ) / ((taps:ℝ) - 1))⌋ := by
  have hden : (0:ℝ) < (taps:ℝ) - 1 := by
    have : (2:ℝ) ≤ (taps:ℝ) := by exact_mod_cast htaps
    linarith
  have hNr : (taps:ℝ) - 1 ≤ (N:ℝ) := by exact_mod_cast hN
  have hratio : (1:ℝ) ≤ (N:ℝ) / ((taps:ℝ) - 1) :=
    (le_div_iff₀ hden).mpr (by linarith)
  have hlog : 0 ≤ Real.logb 2 ((N:ℝ) / ((taps:ℝ) - 1)) :=
    Real.logb_nonneg (by norm_num) hratio
  unfold wavelet_levels
  rw [show Real.log ((N:ℝ) / ((taps:ℝ) - 1)) / Real.log 2 =
      Real.logb 2 ((N:ℝ) / ((taps:ℝ) - 1)) from rfl, ctrunc_of_nonneg hlog]

/-- C9 witness: 8 samples with a 3-tap wavelet give depth
`floor(log2(4)) = 2`. -/
theorem wavelet_levels_floor_witness :
    ((2:Int) ≤ 3 ∧ (3:Int) - 1 ≤ 8)
    ∧ wavelet_levels 8 3 = ⌊Real.logb 2 (((8:Int):ℝ) / (((3:Int):ℝ) - 1))⌋ :=
  ⟨⟨by norm_num, by norm_num⟩, wavelet_levels_floor 8 3 (by norm_num) (by norm_num)⟩

end Poriscope
